import Mathlib

/-!
Shallow embedding of `src/memslasermachining/layout_sequencing.py`
(class `LayoutSequencer`): layout-level laser-machining sequence
composition and configuration validation.

The layout-level component delegates to external collaborators that are
not part of the core source file: the per-polygon planner
(`PolygonSequencer` from `polygon_sequencing.py`), the point value types
(`points.py`), the numpy array conversion, the configuration constant
(`config.py`) and visualization.  Those externals are modelled from the
spec, as marked on each definition; the `LayoutSequencer` methods
themselves are translated directly from the source.

Python exceptions are modelled by returning the (possibly mutated) state
together with an optional error: a Python method that raises partway
leaves the object in whatever state the already-executed statements
produced, so every method returns `LayoutSequencer × Option PyError`.
-/

namespace LayoutSequencing

/-- Modelled from the spec: the opaque 2D point value type from
`points.py` ("Geometric primitives (points, point collections) — treated
as opaque value types"). -/
structure Point where
  x : ℚ
  y : ℚ
  deriving DecidableEq, Repr

/-- Modelled from the spec: a `PointArray` is an ordered collection of
2D points. -/
abbrev PointArray := List Point

/-- Modelled from the spec: `DEFAULT_TARGET_INIT_SEPARATION` from
`config.py`, "a system default value" for the target initial pass
separation in microns.  The exact magnitude is irrelevant to every
layout-level claim. -/
def DEFAULT_TARGET_INIT_SEPARATION : ℚ := 10

/-- Modelled from the spec: the parameters object of the external
per-polygon planner, exposing "a pass count (positive integer)". -/
structure SequencerParams where
  num_passes : Nat
  deriving DecidableEq, Repr

/-- Modelled from the spec: the external per-polygon planner
(`PolygonSequencer`) after successful construction exposes its
parameters and "an ordered sequence of passes matching that count (each
pass an ordered collection of points)". -/
structure PolygonSequencer where
  params : SequencerParams
  sequence : List (List Point)
  deriving DecidableEq, Repr

/-- Modelled from the spec: planner construction "may fail at
construction with a planner-specific sequencing error ... the failure
carries a human-readable diagnostic" (`PolygonSequencingError`).  A
planner is a construct-or-fail factory from (vertices, separation). -/
def Planner := PointArray → ℚ → Except String PolygonSequencer

/-- Python exceptions raised by the layout-level code: `ValueError` and
`RuntimeError`, each carrying its message. -/
inductive PyError where
  | valueError (msg : String)
  | runtimeError (msg : String)
  deriving DecidableEq, Repr

/-- Modelled from the spec: the outcome of converting one user-supplied
array-like polygon via `np.array(..., dtype=np.float64)` followed by the
source's shape inspection.  `convFail` is a conversion that raises
`TypeError`/`ValueError`; `badShape` converts but the result is not
rank-2 with exactly 2 columns; `valid pts` is an `[N][2]` numeric array
whose rows are the points `pts`. -/
inductive ArrayLike where
  | convFail
  | badShape
  | valid (points : List Point)
  deriving DecidableEq, Repr

/-- The `LayoutSequencer` object state: the six attributes assigned in
`__init__`, with Python `None` as `Option.none`. -/
structure LayoutSequencer where
  polygons_as_vertices : Option (List PointArray)
  num_polygons : Option Nat
  target_init_separation : Option (List ℚ)
  staggered : Bool
  polygon_sequencers : Option (List PolygonSequencer)
  sequence : Option (List (List Point))
  deriving DecidableEq, Repr

/-- Source `LayoutSequencer.__init__`: every attribute starts as `None` except
`staggered = False`. -/
def LayoutSequencer.init : LayoutSequencer :=
  { polygons_as_vertices := none
    num_polygons := none
    target_init_separation := none
    staggered := false
    polygon_sequencers := none
    sequence := none }

/-- The `error_message_roots` dictionary inside the `validate_state`
decorator. -/
def error_message_roots (attribute_name : String) : Option String :=
  if attribute_name = "polygons_as_vertices" then some "Set polygons"
  else if attribute_name = "sequence" then some "Generate sequence"
  else none

/-- The error message built by the `validate_state` decorator:
root + " before invoking " + method name + "()". -/
def validate_state_message (attribute_name method_name : String) : String :=
  (error_message_roots attribute_name).getD "" ++ " before invoking " ++ method_name ++ "()"

/-- The loop body of `set_polygons`: `self.polygons_as_vertices` has
already been reset to `[]`; each element is converted (raising
`ValueError` on conversion failure), shape-checked (raising `ValueError`
on a non-`[N][2]` shape) and appended.  After the loop, `num_polygons`
and the default-filled `target_init_separation` are assigned. -/
def set_polygons_loop (s : LayoutSequencer) :
    List ArrayLike → LayoutSequencer × Option PyError
  | [] =>
    let n := (s.polygons_as_vertices.getD []).length
    let sep := List.replicate n DEFAULT_TARGET_INIT_SEPARATION
    ({ s with num_polygons := some n, target_init_separation := some sep }, none)
  | .convFail :: _ =>
    (s, some (.valueError "Input arrays cannot be converted to numpy arrays"))
  | .badShape :: _ =>
    (s, some (.valueError "Input arrays violate [N][2] shape requirement"))
  | .valid pts :: rest =>
    let appended := s.polygons_as_vertices.getD [] ++ [pts]
    set_polygons_loop { s with polygons_as_vertices := some appended } rest

/-- Source `LayoutSequencer.set_polygons`: resets `polygons_as_vertices` to the
empty list, then converts, validates and appends each input polygon in
order; on success sets `num_polygons` and default-fills
`target_init_separation`.  A raised `ValueError` leaves the partially
rebuilt `polygons_as_vertices` in place. -/
def set_polygons (s : LayoutSequencer) (polygons_as_vertices : List ArrayLike) :
    LayoutSequencer × Option PyError :=
  set_polygons_loop { s with polygons_as_vertices := some [] } polygons_as_vertices

/-- The argument of `set_target_init_separation`: a single number or a
list of numbers (`float | list[float]`). -/
inductive SepArg where
  | scalar (x : ℚ)
  | list (xs : List ℚ)
  deriving DecidableEq, Repr

/-- Source `LayoutSequencer.set_target_init_separation`, including its
`validate_state('polygons_as_vertices')` decorator: with a list argument
whose length differs from `num_polygons` it raises `ValueError`,
otherwise stores the list; with a scalar it stores the scalar repeated
`num_polygons` times.  (`num_polygons` is read through `getD 0`; in
every state produced by a successful `set_polygons` it is `some n`.) -/
def set_target_init_separation (s : LayoutSequencer) (arg : SepArg) :
    LayoutSequencer × Option PyError :=
  match s.polygons_as_vertices with
  | none =>
    (s, some (.runtimeError
      (validate_state_message "polygons_as_vertices" "set_target_init_separation")))
  | some _ =>
    match arg with
    | .list xs =>
      if xs.length ≠ s.num_polygons.getD 0 then
        (s, some (.valueError
          "List of target initial pass separations does not match the number of polygons"))
      else
        ({ s with target_init_separation := some xs }, none)
    | .scalar x =>
      let sep := List.replicate (s.num_polygons.getD 0) x
      ({ s with target_init_separation := some sep }, none)

/-- Source `LayoutSequencer.set_staggered`: plain assignment, never fails. -/
def set_staggered (s : LayoutSequencer) (staggered : Bool) : LayoutSequencer :=
  { s with staggered := staggered }

/-- The planner-construction loop of `generate_sequence` (lines 94-104):
`num_passes_by_polygon` and `self.polygon_sequencers` both start empty
and are appended to for each polygon in input order; a
`PolygonSequencingError` aborts the loop with the partial accumulators
and the planner's diagnostic. -/
def generate_sequence_loop (planner : Planner)
    (num_passes_by_polygon : List Nat) (polygon_sequencers : List PolygonSequencer) :
    List (PointArray × ℚ) → List Nat × List PolygonSequencer × Option String
  | [] => (num_passes_by_polygon, polygon_sequencers, none)
  | (vertices, target_init_separation) :: rest =>
    match planner vertices target_init_separation with
    | .error e => (num_passes_by_polygon, polygon_sequencers, some e)
    | .ok polygon_sequencer =>
      generate_sequence_loop planner
        (num_passes_by_polygon ++ [polygon_sequencer.params.num_passes])
        (polygon_sequencers ++ [polygon_sequencer]) rest

/-- The inner staggered loop for one polygon (lines 110-111):
`for pass_index in range(ps.params.num_passes):
self.sequence[pass_index].extend(ps.sequence[pass_index])`, as a fold of
in-place index updates over the global sequence. -/
def extend_passes (polygon_sequencer : PolygonSequencer)
    (seq : List (List Point)) : List (List Point) :=
  (List.range polygon_sequencer.params.num_passes).foldl
    (fun acc pass_index =>
      acc.set pass_index
        (acc.getD pass_index [] ++ polygon_sequencer.sequence.getD pass_index []))
    seq

/-- The staggered composition (lines 107-111): the global sequence
starts as `max_num_passes` empty groups and each polygon's passes are
merged into the group of matching pass index, polygons in input order. -/
def staggered_sequence (sequencers : List PolygonSequencer)
    (max_num_passes : Nat) : List (List Point) :=
  sequencers.foldl (fun acc ps => extend_passes ps acc)
    (List.replicate max_num_passes ([] : List Point))

/-- The sequential composition (lines 113-115): `self.sequence = []`
then `self.sequence.extend(ps.sequence)` per polygon in input order. -/
def sequential_sequence (sequencers : List PolygonSequencer) : List (List Point) :=
  sequencers.foldl (fun acc ps => acc ++ ps.sequence) []

/-- Source `LayoutSequencer.generate_sequence`, including its
`validate_state('polygons_as_vertices')` decorator.  The per-polygon
planner is a parameter (external collaborator).  Polygon `i` is
sequenced from `polygons_as_vertices[i]` and `target_init_separation[i]`
for `i < num_polygons`; a planner failure raises `ValueError` wrapping
the diagnostic, with the partial `polygon_sequencers` committed.  In the
staggered branch, `max` of an empty `num_passes_by_polygon` raises
Python's `ValueError: max() arg is an empty sequence`.  (Out-of-range
list reads, impossible in the consistent states produced by
`set_polygons`, are modelled with `getD` defaults.) -/
def generate_sequence (planner : Planner) (s : LayoutSequencer) :
    LayoutSequencer × Option PyError :=
  match s.polygons_as_vertices with
  | none =>
    (s, some (.runtimeError
      (validate_state_message "polygons_as_vertices" "generate_sequence")))
  | some polys =>
    match generate_sequence_loop planner [] []
        ((List.range (s.num_polygons.getD 0)).map
          (fun polygon_index =>
            (polys.getD polygon_index [],
             (s.target_init_separation.getD []).getD polygon_index 0))) with
    | (_, sequencers, some e) =>
      ({ s with polygon_sequencers := some sequencers },
       some (.valueError ("Polygons could not be sequenced\n" ++ e)))
    | (num_passes_by_polygon, sequencers, none) =>
      if s.staggered then
        match num_passes_by_polygon.max? with
        | none =>
          ({ s with polygon_sequencers := some sequencers },
           some (.valueError "max() arg is an empty sequence"))
        | some max_num_passes =>
          ({ s with
              polygon_sequencers := some sequencers
              sequence := some (staggered_sequence sequencers max_num_passes) },
           none)
      else
        ({ s with
            polygon_sequencers := some sequencers
            sequence := some (sequential_sequence sequencers) },
         none)

/-- Source `LayoutSequencer.view_sequence`, reduced to its
`validate_state('sequence')` decorator: the body only delegates to the
external visualization collaborators ("pure side-effecting consumer
operation; produces no persisted state change"), so the state is
returned unchanged on success. -/
def view_sequence (s : LayoutSequencer) : LayoutSequencer × Option PyError :=
  match s.sequence with
  | none =>
    (s, some (.runtimeError (validate_state_message "sequence" "view_sequence")))
  | some _ => (s, none)

/-- Written from the spec's words for the staggered policy: "output
group at pass-index k contains the concatenation, over polygons in input
order, of polygon i's pass k — but only for polygons whose own pass
count is ≥ k+1 (polygons with fewer passes simply contribute
nothing)". -/
def staggered_group_spec (sequencers : List PolygonSequencer) (k : Nat) :
    List Point :=
  (sequencers.map (fun ps =>
    if k + 1 ≤ ps.params.num_passes then ps.sequence.getD k [] else [])).flatten

/-- The maximum pass count across all polygons (`max(num_passes_by_polygon)`
when the list is nonempty, `0` for the empty list). -/
def max_pass_count (sequencers : List PolygonSequencer) : Nat :=
  ((sequencers.map (fun ps => ps.params.num_passes)).max?).getD 0

/-- Total number of machining points in a list of passes. -/
def total_points (seq : List (List Point)) : Nat :=
  (seq.map List.length).sum

/-- Total number of machining points across all per-polygon passes. -/
def planner_total_points (sequencers : List PolygonSequencer) : Nat :=
  (sequencers.map (fun ps => total_points ps.sequence)).sum

/-- Rows of an array-like element that converted successfully
(`PointArray(vertices_ndarray)` in the source). -/
def extract_points : ArrayLike → List Point
  | .valid pts => pts
  | _ => []

/-- Message of the `ValueError` raised by `set_polygons` for a given
invalid element. -/
def conversion_error_message : ArrayLike → String
  | .convFail => "Input arrays cannot be converted to numpy arrays"
  | _ => "Input arrays violate [N][2] shape requirement"

/-- Generalization of the inner staggered loop of `extend_passes`: the
fold of `acc.set k (acc[k] + q[k])` over `k ∈ range n`, abstracted over
the pass list `q` and the bound `n`. -/
def extend_go (q : List (List Point)) (n : Nat) (seq : List (List Point)) :
    List (List Point) :=
  (List.range n).foldl
    (fun acc pass_index =>
      acc.set pass_index (acc.getD pass_index [] ++ q.getD pass_index []))
    seq

/-- Concrete point used in witnesses. -/
def pA : Point := ⟨0, 0⟩

/-- Concrete point used in witnesses. -/
def pB : Point := ⟨1, 0⟩

/-- Concrete point used in witnesses. -/
def pC : Point := ⟨2, 0⟩

/-- Concrete point used in witnesses. -/
def pD : Point := ⟨3, 0⟩

/-- Concrete point used in witnesses. -/
def pE : Point := ⟨4, 0⟩

/-- Concrete example planner satisfying the spec's planner contract on
nonempty polygons: a polygon with `k` vertices gets `k` passes, pass `j`
machining only vertex `j`; the empty polygon is rejected with diagnostic
`diag`. -/
def demo_planner : Planner := fun v _ =>
  if v = [] then .error "diag" else .ok ⟨⟨v.length⟩, v.map (fun p => [p])⟩

/-- Concrete configured layout with two polygons of 2 and 3 vertices
(pass counts [2, 3] under `demo_planner`): the spec's own worked
example. -/
def demo_layout : LayoutSequencer :=
  (set_polygons LayoutSequencer.init [.valid [pA, pB], .valid [pC, pD, pE]]).1

/-- Concrete layout state whose second polygon is rejected by
`demo_planner`, with planner and sequence results already present from
earlier activity. -/
def c4_state : LayoutSequencer :=
  { polygons_as_vertices := some [[pA], []]
    num_polygons := some 2
    target_init_separation := some [10, 10]
    staggered := false
    polygon_sequencers := some [⟨⟨5⟩, []⟩]
    sequence := some [[pA]] }

/-- Concrete state after a successful `set_polygons` with one polygon,
used to exhibit the mutation performed by a later failing
`set_polygons`. -/
def c5_state : LayoutSequencer :=
  (set_polygons LayoutSequencer.init [.valid [pA]]).1

/-- Unfolding `extend_passes` into its generalized form. -/
theorem extend_passes_eq_go (ps : PolygonSequencer) (seq : List (List Point)) :
    extend_passes ps seq = extend_go ps.sequence ps.params.num_passes seq := rfl

/-- One more step of the inner staggered loop. -/
theorem extend_go_succ (q : List (List Point)) (n : Nat) (seq : List (List Point)) :
    extend_go q (n + 1) seq =
      (extend_go q n seq).set n
        ((extend_go q n seq).getD n [] ++ q.getD n []) := by
  unfold extend_go
  rw [List.range_succ, List.foldl_append]
  rfl

/-- The inner staggered loop only updates existing groups, so it
preserves the number of groups. -/
theorem extend_go_length (q : List (List Point)) :
    ∀ (n : Nat) (seq : List (List Point)), (extend_go q n seq).length = seq.length := by
  intro n
  induction n with
  | zero => intro seq; rfl
  | succ m ih =>
    intro seq
    rw [extend_go_succ, List.length_set]
    exact ih seq

/-- Reading any index of a replicated empty group gives the empty
group. -/
theorem getD_replicate_nil :
    ∀ (n j : Nat), (List.replicate n ([] : List Point)).getD j [] = [] := by
  intro n
  induction n with
  | zero => intro j; cases j <;> rfl
  | succ m ih =>
    intro j
    cases j with
    | zero => rfl
    | succ k =>
      rw [List.replicate_succ, List.getD_cons_succ]
      exact ih k

/-- Pointwise effect of the inner staggered loop: group `j` is extended
by the polygon's pass `j` exactly when `j` is below the polygon's pass
count. -/
theorem extend_go_getD (q : List (List Point)) :
    ∀ (n : Nat) (seq : List (List Point)), n ≤ seq.length → ∀ (j : Nat),
      (extend_go q n seq).getD j [] =
        seq.getD j [] ++ (if j + 1 ≤ n then q.getD j [] else []) := by
  intro n
  induction n with
  | zero => intro seq _ j; simp [extend_go]
  | succ m ih =>
    intro seq hn j
    have hm : m < seq.length := hn
    have hElen : (extend_go q m seq).length = seq.length := extend_go_length q m seq
    rw [extend_go_succ]
    by_cases hjm : j = m
    · subst hjm
      rw [List.getD_eq_getElem?_getD, List.getElem?_set_self (by omega),
        Option.getD_some, ih seq (Nat.le_of_lt hm) j,
        if_neg (by omega), if_pos (Nat.le_refl _), List.append_nil]
    · rw [List.getD_eq_getElem?_getD, List.getElem?_set_ne (fun h => hjm h.symm),
        ← List.getD_eq_getElem?_getD, ih seq (Nat.le_of_lt hm) j]
      by_cases hj : j + 1 ≤ m
      · rw [if_pos hj, if_pos (by omega)]
      · rw [if_neg hj, if_neg (by omega)]

/-- Point counts add up over concatenation of pass lists. -/
theorem total_points_append (a b : List (List Point)) :
    total_points (a ++ b) = total_points a + total_points b := by
  simp [total_points]

/-- Point counts of a flattened list of pass lists. -/
theorem total_points_flatten (L : List (List (List Point))) :
    total_points L.flatten = (L.map total_points).sum := by
  induction L with
  | nil => rfl
  | cons a t ih =>
    rw [List.flatten_cons, total_points_append, ih, List.map_cons, List.sum_cons]

/-- A sequence of empty groups holds no points. -/
theorem total_points_replicate_nil (n : Nat) :
    total_points (List.replicate n ([] : List Point)) = 0 := by
  simp [total_points, List.map_replicate]

/-- Extending one group in place adds exactly the appended points. -/
theorem total_points_set_append :
    ∀ (seq : List (List Point)) (j : Nat) (w : List Point), j < seq.length →
      total_points (seq.set j (seq.getD j [] ++ w)) = total_points seq + w.length := by
  intro seq
  induction seq with
  | nil => intro j w h; simp at h
  | cons a t ih =>
    intro j w h
    cases j with
    | zero =>
      simp only [List.set_cons_zero, List.getD_cons_zero, total_points,
        List.map_cons, List.sum_cons, List.length_append]
      omega
    | succ m =>
      have hm : m < t.length := by simpa using h
      simp only [List.set_cons_succ, List.getD_cons_succ, total_points,
        List.map_cons, List.sum_cons]
      have := ih m w hm
      simp only [total_points] at this
      omega

/-- Point count of the inner staggered loop: the first `n` passes of the
polygon are poured into the groups. -/
theorem extend_go_total_points (q : List (List Point)) :
    ∀ (n : Nat) (seq : List (List Point)), n ≤ seq.length →
      total_points (extend_go q n seq) =
        total_points seq +
          ((List.range n).map (fun k => (q.getD k []).length)).sum := by
  intro n
  induction n with
  | zero => intro seq _; simp [extend_go]
  | succ m ih =>
    intro seq hn
    have hlen : m < (extend_go q m seq).length := by
      rw [extend_go_length]; omega
    rw [extend_go_succ, total_points_set_append _ m _ hlen,
      ih seq (by omega), List.range_succ, List.map_append, List.sum_append]
    simp [Nat.add_assoc]

/-- Summing group sizes by index recovers the total point count. -/
theorem sum_getD_lengths :
    ∀ (q : List (List Point)),
      ((List.range q.length).map (fun k => (q.getD k []).length)).sum =
        total_points q := by
  intro q
  induction q with
  | nil => rfl
  | cons a t ih =>
    rw [List.length_cons, List.range_succ_eq_map, List.map_cons, List.sum_cons,
      List.map_map]
    have hc : ((fun k => ((a :: t).getD k []).length) ∘ Nat.succ) =
        (fun k => (t.getD k []).length) := by
      funext k
      simp [List.getD_cons_succ]
    rw [hc, ih, List.getD_cons_zero]
    simp [total_points]

/-- Merging one polygon into the staggered groups adds exactly that
polygon's points, provided the planner contract holds and the groups
cover its pass count. -/
theorem extend_passes_total_points (ps : PolygonSequencer) (seq : List (List Point))
    (h : ps.params.num_passes ≤ seq.length)
    (hc : ps.sequence.length = ps.params.num_passes) :
    total_points (extend_passes ps seq) = total_points seq + total_points ps.sequence := by
  rw [extend_passes_eq_go, extend_go_total_points ps.sequence ps.params.num_passes seq h,
    ← hc, sum_getD_lengths]

/-- The staggered merge never changes the number of groups. -/
theorem staggered_fold_length (sequencers : List PolygonSequencer) :
    ∀ acc : List (List Point),
      (sequencers.foldl (fun a ps => extend_passes ps a) acc).length = acc.length := by
  induction sequencers with
  | nil => intro acc; rfl
  | cons ps t ih =>
    intro acc
    rw [List.foldl_cons, ih, extend_passes_eq_go, extend_go_length]

/-- Pointwise content of the staggered merge: each group collects, in
polygon order, the matching pass of every polygon whose pass count
reaches it. -/
theorem staggered_fold_getD (sequencers : List PolygonSequencer) :
    ∀ acc : List (List Point),
      (∀ ps ∈ sequencers, ps.params.num_passes ≤ acc.length) → ∀ j,
      (sequencers.foldl (fun a ps => extend_passes ps a) acc).getD j [] =
        acc.getD j [] ++ staggered_group_spec sequencers j := by
  induction sequencers with
  | nil => intro acc _ j; simp [staggered_group_spec]
  | cons ps t ih =>
    intro acc hle j
    rw [List.foldl_cons]
    have h1 : ps.params.num_passes ≤ acc.length := hle ps (List.mem_cons_self ps t)
    have h2 : ∀ p ∈ t, p.params.num_passes ≤ (extend_passes ps acc).length := by
      intro p hp
      rw [extend_passes_eq_go, extend_go_length]
      exact hle p (List.mem_cons_of_mem _ hp)
    rw [ih (extend_passes ps acc) h2 j, extend_passes_eq_go,
      extend_go_getD ps.sequence ps.params.num_passes acc h1 j]
    simp [staggered_group_spec, List.append_assoc]

/-- Point count of the staggered merge: every polygon's points are added
exactly once. -/
theorem staggered_fold_total_points (sequencers : List PolygonSequencer) :
    ∀ acc : List (List Point),
      (∀ ps ∈ sequencers, ps.params.num_passes ≤ acc.length) →
      (∀ ps ∈ sequencers, ps.sequence.length = ps.params.num_passes) →
      total_points (sequencers.foldl (fun a ps => extend_passes ps a) acc) =
        total_points acc + planner_total_points sequencers := by
  induction sequencers with
  | nil => intro acc _ _; simp [planner_total_points]
  | cons ps t ih =>
    intro acc hle hct
    rw [List.foldl_cons]
    have h1 : ps.params.num_passes ≤ acc.length := hle ps (List.mem_cons_self ps t)
    have h2 : ∀ p ∈ t, p.params.num_passes ≤ (extend_passes ps acc).length := by
      intro p hp
      rw [extend_passes_eq_go, extend_go_length]
      exact hle p (List.mem_cons_of_mem _ hp)
    rw [ih (extend_passes ps acc) h2 (fun p hp => hct p (List.mem_cons_of_mem _ hp)),
      extend_passes_total_points ps acc h1 (hct ps (List.mem_cons_self ps t))]
    simp [planner_total_points, Nat.add_assoc]

/-- Every polygon's pass count is bounded by `max_pass_count`. -/
theorem le_max_pass_count (sequencers : List PolygonSequencer) (ps : PolygonSequencer)
    (h : ps ∈ sequencers) : ps.params.num_passes ≤ max_pass_count sequencers := by
  unfold max_pass_count
  have hmem : ps.params.num_passes ∈ sequencers.map (fun p => p.params.num_passes) :=
    List.mem_map_of_mem _ h
  cases hmax : (sequencers.map (fun p => p.params.num_passes)).max? with
  | none =>
    rw [List.max?_eq_none_iff] at hmax
    rw [hmax] at hmem
    cases hmem
  | some m =>
    exact (List.max?_eq_some_iff'.mp hmax).2 _ hmem

/-- The staggered composition equals, group by group, the spec's
formula. -/
theorem staggered_sequence_eq (sequencers : List PolygonSequencer)
    (max_num_passes : Nat)
    (hle : ∀ ps ∈ sequencers, ps.params.num_passes ≤ max_num_passes) :
    staggered_sequence sequencers max_num_passes =
      (List.range max_num_passes).map (staggered_group_spec sequencers) := by
  have hlen : (staggered_sequence sequencers max_num_passes).length = max_num_passes := by
    unfold staggered_sequence
    rw [staggered_fold_length, List.length_replicate]
  have hle' : ∀ ps ∈ sequencers,
      ps.params.num_passes ≤ (List.replicate max_num_passes ([] : List Point)).length := by
    intro ps hps
    rw [List.length_replicate]
    exact hle ps hps
  apply List.ext_getElem
  · rw [hlen, List.length_map, List.length_range]
  · intro n h1 h2
    have hgd : (staggered_sequence sequencers max_num_passes).getD n [] =
        staggered_group_spec sequencers n := by
      unfold staggered_sequence
      rw [staggered_fold_getD sequencers _ hle' n, getD_replicate_nil, List.nil_append]
    rw [← List.getD_eq_getElem _ [] h1, hgd]
    rw [List.getElem_map, List.getElem_range]

/-- The sequential composition is the flat concatenation of the
per-polygon pass lists. -/
theorem sequential_sequence_eq (sequencers : List PolygonSequencer) :
    sequential_sequence sequencers =
      (sequencers.map (fun ps => ps.sequence)).flatten := by
  have key : ∀ (l : List PolygonSequencer) (acc : List (List Point)),
      l.foldl (fun a ps => a ++ ps.sequence) acc =
        acc ++ (l.map (fun ps => ps.sequence)).flatten := by
    intro l
    induction l with
    | nil => intro acc; simp
    | cons ps t ih =>
      intro acc
      rw [List.foldl_cons, ih, List.map_cons, List.flatten_cons, List.append_assoc]
  rw [sequential_sequence, key, List.nil_append]

/-- A planner-construction loop that ends without an error appended one
sequencer per processed polygon, with the pass-count list tracking the
sequencer list. -/
theorem generate_sequence_loop_none (planner : Planner) :
    ∀ (pairs : List (PointArray × ℚ)) (ns : List Nat) (acc : List PolygonSequencer)
      (nums : List Nat) (seqs : List PolygonSequencer),
      generate_sequence_loop planner ns acc pairs = (nums, seqs, none) →
      ∃ news, seqs = acc ++ news ∧
        nums = ns ++ news.map (fun ps => ps.params.num_passes) := by
  intro pairs
  induction pairs with
  | nil =>
    intro ns acc nums seqs h
    simp only [generate_sequence_loop, Prod.mk.injEq] at h
    exact ⟨[], by simp [← h.2.1], by simp [← h.1]⟩
  | cons p rest ih =>
    intro ns acc nums seqs h
    obtain ⟨v, t⟩ := p
    simp only [generate_sequence_loop] at h
    cases hp : planner v t with
    | error e => rw [hp] at h; simp at h
    | ok ps =>
      rw [hp] at h
      obtain ⟨news, h1, h2⟩ := ih _ _ _ _ h
      refine ⟨ps :: news, ?_, ?_⟩
      · rw [h1, List.append_assoc]; rfl
      · rw [h2, List.append_assoc]; rfl

/-- A planner-construction loop whose input has a first failing polygon
stops there: the accumulators keep exactly the sequencers of the
polygons before the failure, and the planner's diagnostic is
returned. -/
theorem generate_sequence_loop_first_error (planner : Planner) :
    ∀ (good : List (PointArray × ℚ)) (v : PointArray) (t : ℚ)
      (rest : List (PointArray × ℚ)) (e : String),
      (∀ p ∈ good, ∃ ps, planner p.1 p.2 = .ok ps) →
      planner v t = .error e →
      ∀ (ns : List Nat) (acc : List PolygonSequencer),
        ∃ news, generate_sequence_loop planner ns acc (good ++ (v, t) :: rest) =
          (ns ++ news.map (fun ps => ps.params.num_passes), acc ++ news, some e) ∧
          news.length = good.length := by
  intro good
  induction good with
  | nil =>
    intro v t rest e _ hf ns acc
    refine ⟨[], ?_, rfl⟩
    simp [generate_sequence_loop, hf]
  | cons p g ih =>
    intro v t rest e hgood hf ns acc
    obtain ⟨vp, tp⟩ := p
    obtain ⟨ps, hps⟩ := hgood (vp, tp) (List.mem_cons_self _ _)
    obtain ⟨news, hh, hlen⟩ :=
      ih v t rest e (fun q hq => hgood q (List.mem_cons_of_mem _ hq)) hf
        (ns ++ [ps.params.num_passes]) (acc ++ [ps])
    refine ⟨ps :: news, ?_, by simp [hlen]⟩
    rw [List.cons_append]
    simp only [generate_sequence_loop, hps]
    rw [hh]
    simp [List.append_assoc]

/-- Indexed iteration over two equally long lists, as performed by
`generate_sequence` with `range(num_polygons)`, is their zip. -/
theorem range_map_getD_zip :
    ∀ (polys : List PointArray) (seps : List ℚ), polys.length = seps.length →
      (List.range polys.length).map
        (fun i => (polys.getD i [], seps.getD i 0)) = polys.zip seps := by
  intro polys
  induction polys with
  | nil => intro seps _; rfl
  | cons p pt ih =>
    intro seps hlen
    cases seps with
    | nil => simp at hlen
    | cons q qt =>
      rw [List.length_cons, List.range_succ_eq_map, List.map_cons, List.map_map]
      have hc : ((fun i => ((p :: pt).getD i [], (q :: qt).getD i 0)) ∘ Nat.succ) =
          (fun i => (pt.getD i [], qt.getD i 0)) := by
        funext i
        simp [List.getD_cons_succ]
      rw [hc, ih qt (by simpa using hlen)]
      simp [List.zip_cons_cons, List.getD_cons_zero]

/-- Characterization of a successful `generate_sequence` run: the
committed sequencers determine the committed sequence according to the
staggering flag, with the staggered group count being the maximum pass
count. -/
theorem generate_sequence_success (planner : Planner) (s s' : LayoutSequencer)
    (hrun : generate_sequence planner s = (s', none)) :
    ∃ sequencers : List PolygonSequencer,
      s'.polygon_sequencers = some sequencers ∧
      ((s.staggered = true ∧
        s'.sequence =
          some (staggered_sequence sequencers (max_pass_count sequencers))) ∨
       (s.staggered = false ∧
        s'.sequence = some (sequential_sequence sequencers))) := by
  unfold generate_sequence at hrun
  split at hrun
  · exact absurd (congrArg Prod.snd hrun) (by simp)
  · rename_i polys hpolys
    split at hrun
    · exact absurd (congrArg Prod.snd hrun) (by simp)
    · rename_i nums seqs heq
      obtain ⟨news, hseqs, hnums⟩ :=
        generate_sequence_loop_none planner _ _ _ _ _ heq
      rw [List.nil_append] at hseqs hnums
      subst hseqs
      cases hst : s.staggered with
      | false =>
        rw [hst] at hrun
        simp only [Bool.false_eq_true, if_false] at hrun
        injection hrun with h1 _
        subst h1
        exact ⟨seqs, rfl, Or.inr ⟨rfl, rfl⟩⟩
      | true =>
        rw [hst] at hrun
        simp only [if_true] at hrun
        split at hrun
        · exact absurd (congrArg Prod.snd hrun) (by simp)
        · rename_i maxn hmax
          have hmpc : max_pass_count seqs = maxn := by
            unfold max_pass_count
            rw [← hnums, hmax, Option.getD_some]
          injection hrun with h1 _
          subst h1
          exact ⟨seqs, rfl, Or.inl ⟨rfl, by rw [hmpc]⟩⟩

/-- A conversion loop over only valid elements appends all their rows
and then commits the count and the default separations. -/
theorem set_polygons_loop_all_valid :
    ∀ (input : List ArrayLike) (s : LayoutSequencer) (acc : List PointArray),
      (∀ a ∈ input, ∃ pts, a = ArrayLike.valid pts) →
      s.polygons_as_vertices = some acc →
      set_polygons_loop s input =
        ({ s with
            polygons_as_vertices := some (acc ++ input.map extract_points)
            num_polygons := some (acc ++ input.map extract_points).length
            target_init_separation :=
              some (List.replicate (acc ++ input.map extract_points).length
                DEFAULT_TARGET_INIT_SEPARATION) }, none) := by
  intro input
  induction input with
  | nil =>
    intro s acc _ hacc
    obtain ⟨p0, n0, t0, st0, q0, sq0⟩ := s
    simp only at hacc
    subst hacc
    simp [set_polygons_loop]
  | cons a rest ih =>
    intro s acc hvalid hacc
    obtain ⟨pts, hpts⟩ := hvalid a (List.mem_cons_self a rest)
    subst hpts
    obtain ⟨p0, n0, t0, st0, q0, sq0⟩ := s
    simp only at hacc
    subst hacc
    show set_polygons_loop _ rest = _
    rw [ih _ (acc ++ [pts]) (fun b hb => hvalid b (List.mem_cons_of_mem _ hb))
      (by simp [set_polygons_loop])]
    simp [extract_points, List.append_assoc]

/-- A conversion loop hitting its first invalid element stops with the
matching error, having appended exactly the rows of the preceding valid
elements and nothing else. -/
theorem set_polygons_loop_first_error :
    ∀ (good : List ArrayLike) (bad : ArrayLike) (rest : List ArrayLike)
      (s : LayoutSequencer) (acc : List PointArray),
      (∀ a ∈ good, ∃ pts, a = ArrayLike.valid pts) →
      (bad = ArrayLike.convFail ∨ bad = ArrayLike.badShape) →
      s.polygons_as_vertices = some acc →
      set_polygons_loop s (good ++ bad :: rest) =
        ({ s with polygons_as_vertices := some (acc ++ good.map extract_points) },
         some (.valueError (conversion_error_message bad))) := by
  intro good
  induction good with
  | nil =>
    intro bad rest s acc _ hbad hacc
    obtain ⟨p0, n0, t0, st0, q0, sq0⟩ := s
    simp only at hacc
    subst hacc
    cases hbad with
    | inl h => subst h; simp [set_polygons_loop, conversion_error_message]
    | inr h => subst h; simp [set_polygons_loop, conversion_error_message]
  | cons a g ih =>
    intro bad rest s acc hvalid hbad hacc
    obtain ⟨pts, hpts⟩ := hvalid a (List.mem_cons_self a g)
    subst hpts
    obtain ⟨p0, n0, t0, st0, q0, sq0⟩ := s
    simp only at hacc
    subst hacc
    show set_polygons_loop _ (g ++ bad :: rest) = _
    rw [ih bad rest _ (acc ++ [pts])
      (fun b hb => hvalid b (List.mem_cons_of_mem _ hb)) hbad
      (by simp [set_polygons_loop])]
    simp [extract_points, List.append_assoc]

/-- C1: for every successful `generate_sequence` call with
`staggered = true`, the resulting sequence has exactly
max(per-polygon pass counts) groups, and the group at pass-index `k` is
the concatenation, over polygons in input order, of polygon `i`'s pass
`k` for exactly those polygons whose pass count is at least `k+1`,
preserving each polygon's internal pass order. -/
theorem C1_staggered_composition (planner : Planner) (s s' : LayoutSequencer)
    (sequencers : List PolygonSequencer) (out : List (List Point))
    (hstag : s.staggered = true)
    (hrun : generate_sequence planner s = (s', none))
    (hseqs : s'.polygon_sequencers = some sequencers)
    (hcontract : ∀ ps ∈ sequencers, ps.sequence.length = ps.params.num_passes)
    (hout : s'.sequence = some out) :
    out.length = max_pass_count sequencers ∧
    out = (List.range (max_pass_count sequencers)).map
      (staggered_group_spec sequencers) := by
  obtain ⟨seqs, hps, hcase⟩ := generate_sequence_success planner s s' hrun
  have h' : seqs = sequencers := by
    injection hps.symm.trans hseqs
  rw [h'] at hcase
  cases hcase with
  | inr h => rw [hstag] at h; exact absurd h.1 (by simp)
  | inl h =>
    have hoeq : out = staggered_sequence sequencers (max_pass_count sequencers) := by
      injection h.2.symm.trans hout with h3
      exact h3.symm
    rw [hoeq, staggered_sequence_eq sequencers _
      (fun ps hp => le_max_pass_count sequencers ps hp)]
    exact ⟨by rw [List.length_map, List.length_range], rfl⟩

/-- Witness for C1 on the spec's own example: pass counts [2, 3] give
three groups [pass0 of both, pass1 of both, pass2 of polygon 1 only]. -/
theorem C1_staggered_composition_witness :
    ([[pA, pC], [pB, pD], [pE]] : List (List Point)).length =
      max_pass_count [⟨⟨2⟩, [[pA], [pB]]⟩, ⟨⟨3⟩, [[pC], [pD], [pE]]⟩] ∧
    ([[pA, pC], [pB, pD], [pE]] : List (List Point)) =
      (List.range (max_pass_count [⟨⟨2⟩, [[pA], [pB]]⟩, ⟨⟨3⟩, [[pC], [pD], [pE]]⟩])).map
        (staggered_group_spec [⟨⟨2⟩, [[pA], [pB]]⟩, ⟨⟨3⟩, [[pC], [pD], [pE]]⟩]) :=
  C1_staggered_composition demo_planner (set_staggered demo_layout true)
    (generate_sequence demo_planner (set_staggered demo_layout true)).1
    [⟨⟨2⟩, [[pA], [pB]]⟩, ⟨⟨3⟩, [[pC], [pD], [pE]]⟩]
    [[pA, pC], [pB, pD], [pE]]
    (by decide) (by decide) (by decide) (by decide) (by decide)

/-- C2: for every successful `generate_sequence` call with
`staggered = false`, the resulting sequence is the flat concatenation of
each polygon's full ordered list of passes in polygon input order, and
its length is the sum of the per-polygon pass counts. -/
theorem C2_sequential_composition (planner : Planner) (s s' : LayoutSequencer)
    (sequencers : List PolygonSequencer) (out : List (List Point))
    (hstag : s.staggered = false)
    (hrun : generate_sequence planner s = (s', none))
    (hseqs : s'.polygon_sequencers = some sequencers)
    (hcontract : ∀ ps ∈ sequencers, ps.sequence.length = ps.params.num_passes)
    (hout : s'.sequence = some out) :
    out = (sequencers.map (fun ps => ps.sequence)).flatten ∧
    out.length = (sequencers.map (fun ps => ps.params.num_passes)).sum := by
  obtain ⟨seqs, hps, hcase⟩ := generate_sequence_success planner s s' hrun
  have h' : seqs = sequencers := by
    injection hps.symm.trans hseqs
  rw [h'] at hcase
  cases hcase with
  | inl h => rw [hstag] at h; exact absurd h.1 (by simp)
  | inr h =>
    have hoeq : out = sequential_sequence sequencers := by
      injection h.2.symm.trans hout with h3
      exact h3.symm
    rw [hoeq, sequential_sequence_eq]
    refine ⟨rfl, ?_⟩
    rw [List.length_flatten, List.map_map]
    have hmap : sequencers.map (List.length ∘ fun ps => ps.sequence) =
        sequencers.map (fun ps => ps.params.num_passes) :=
      List.map_congr_left (fun ps hp => hcontract ps hp)
    rw [hmap]

/-- Witness for C2 on the spec's own example: pass counts [2, 3] give
the five passes of polygon 0 then polygon 1, in order. -/
theorem C2_sequential_composition_witness :
    ([[pA], [pB], [pC], [pD], [pE]] : List (List Point)) =
      (([⟨⟨2⟩, [[pA], [pB]]⟩, ⟨⟨3⟩, [[pC], [pD], [pE]]⟩] :
        List PolygonSequencer).map (fun ps => ps.sequence)).flatten ∧
    ([[pA], [pB], [pC], [pD], [pE]] : List (List Point)).length =
      (([⟨⟨2⟩, [[pA], [pB]]⟩, ⟨⟨3⟩, [[pC], [pD], [pE]]⟩] :
        List PolygonSequencer).map (fun ps => ps.params.num_passes)).sum :=
  C2_sequential_composition demo_planner (set_staggered demo_layout false)
    (generate_sequence demo_planner (set_staggered demo_layout false)).1
    [⟨⟨2⟩, [[pA], [pB]]⟩, ⟨⟨3⟩, [[pC], [pD], [pE]]⟩]
    [[pA], [pB], [pC], [pD], [pE]]
    (by decide) (by decide) (by decide) (by decide) (by decide)

/-- C3: for every successful `generate_sequence` call, under either
composition policy, the total number of points across the output
sequence equals the sum of all points across all per-polygon passes. -/
theorem C3_point_conservation (planner : Planner) (s s' : LayoutSequencer)
    (sequencers : List PolygonSequencer) (out : List (List Point))
    (hrun : generate_sequence planner s = (s', none))
    (hseqs : s'.polygon_sequencers = some sequencers)
    (hcontract : ∀ ps ∈ sequencers, ps.sequence.length = ps.params.num_passes)
    (hout : s'.sequence = some out) :
    total_points out = planner_total_points sequencers := by
  obtain ⟨seqs, hps, hcase⟩ := generate_sequence_success planner s s' hrun
  have h' : seqs = sequencers := by
    injection hps.symm.trans hseqs
  rw [h'] at hcase
  cases hcase with
  | inl h =>
    have hoeq : out = staggered_sequence sequencers (max_pass_count sequencers) := by
      injection h.2.symm.trans hout with h3
      exact h3.symm
    rw [hoeq]
    unfold staggered_sequence
    rw [staggered_fold_total_points sequencers _
        (fun ps hp => by
          rw [List.length_replicate]
          exact le_max_pass_count sequencers ps hp)
        hcontract,
      total_points_replicate_nil, Nat.zero_add]
  | inr h =>
    have hoeq : out = sequential_sequence sequencers := by
      injection h.2.symm.trans hout with h3
      exact h3.symm
    rw [hoeq, sequential_sequence_eq, total_points_flatten, List.map_map]
    rfl

/-- Witness for C3 on the staggered example: 5 points on both sides. -/
theorem C3_point_conservation_witness :
    total_points [[pA, pC], [pB, pD], [pE]] =
      planner_total_points [⟨⟨2⟩, [[pA], [pB]]⟩, ⟨⟨3⟩, [[pC], [pD], [pE]]⟩] :=
  C3_point_conservation demo_planner (set_staggered demo_layout true)
    (generate_sequence demo_planner (set_staggered demo_layout true)).1
    [⟨⟨2⟩, [[pA], [pB]]⟩, ⟨⟨3⟩, [[pC], [pD], [pE]]⟩]
    [[pA, pC], [pB, pD], [pE]]
    (by decide) (by decide) (by decide) (by decide)

/-- Counterexample to C4 as stated: a planner failure on polygon index 1
raises the wrapped diagnostic in a fixed message that carries no polygon
position, and `polygon_sequencers` IS mutated — the prior list is
replaced by the partial list of successfully constructed planners. -/
theorem C4_counterexample :
    (generate_sequence demo_planner c4_state).2 =
      some (PyError.valueError "Polygons could not be sequenced\ndiag") ∧
    (generate_sequence demo_planner c4_state).1.polygon_sequencers ≠
      c4_state.polygon_sequencers := by
  constructor
  · rfl
  · decide

/-- C4 (amended): if the planner fails on the polygon at position
`good.length` (all earlier polygons having succeeded), then
`generate_sequence` raises a `ValueError` that wraps the planner's
diagnostic in the fixed message "Polygons could not be sequenced" (which
does not identify the polygon's position), leaves `sequence` unchanged,
but replaces `polygon_sequencers` with the partial list of the
`good.length` planners constructed before the failure. -/
theorem C4_planner_failure_amended (planner : Planner) (s : LayoutSequencer)
    (polys : List PointArray) (seps : List ℚ)
    (good rest : List (PointArray × ℚ)) (v : PointArray) (t : ℚ) (e : String)
    (hpoly : s.polygons_as_vertices = some polys)
    (hnum : s.num_polygons = some polys.length)
    (hsep : s.target_init_separation = some seps)
    (hlen : polys.length = seps.length)
    (hsplit : polys.zip seps = good ++ (v, t) :: rest)
    (hgood : ∀ p ∈ good, ∃ ps, planner p.1 p.2 = .ok ps)
    (hfail : planner v t = .error e) :
    ∃ done : List PolygonSequencer,
      generate_sequence planner s =
        ({ s with polygon_sequencers := some done },
         some (.valueError ("Polygons could not be sequenced\n" ++ e))) ∧
      done.length = good.length ∧
      (generate_sequence planner s).1.sequence = s.sequence := by
  obtain ⟨news, hloop, hlen2⟩ :=
    generate_sequence_loop_first_error planner good v t rest e hgood hfail [] []
  have hpairs : (List.range (s.num_polygons.getD 0)).map
      (fun polygon_index =>
        (polys.getD polygon_index [],
         (s.target_init_separation.getD []).getD polygon_index 0)) =
      good ++ (v, t) :: rest := by
    rw [hnum, hsep, Option.getD_some, Option.getD_some,
      range_map_getD_zip polys seps hlen, hsplit]
  have hgen : generate_sequence planner s =
      ({ s with polygon_sequencers := some news },
       some (.valueError ("Polygons could not be sequenced\n" ++ e))) := by
    unfold generate_sequence
    rw [hpoly]
    simp only
    rw [hpairs, hloop]
    rfl
  refine ⟨news, hgen, hlen2, ?_⟩
  rw [hgen]

/-- Witness for the amended C4: the planner rejects the empty polygon at
position 1; one partial planner is kept and the sequence attribute stays
as it was. -/
theorem C4_planner_failure_amended_witness :
    ∃ done : List PolygonSequencer,
      generate_sequence demo_planner c4_state =
        ({ c4_state with polygon_sequencers := some done },
         some (.valueError ("Polygons could not be sequenced\n" ++ "diag"))) ∧
      done.length = ([([pA], (10 : ℚ))] : List (PointArray × ℚ)).length ∧
      (generate_sequence demo_planner c4_state).1.sequence = c4_state.sequence :=
  C4_planner_failure_amended demo_planner c4_state [[pA], []] [10, 10]
    [([pA], 10)] [] [] 10 "diag"
    (by decide) (by decide) (by decide) (by decide) (by decide)
    (by
      intro p hp
      rw [List.mem_singleton] at hp
      subst hp
      exact ⟨⟨⟨1⟩, [[pA]]⟩, rfl⟩)
    rfl

/-- Counterexample to C5 as stated: a failing `set_polygons` raises the
advertised error, but the prior `polygons_as_vertices` does NOT remain
at its pre-call value — it has already been reset and partially
rebuilt. -/
theorem C5_counterexample :
    (set_polygons c5_state [ArrayLike.badShape]).2 =
      some (PyError.valueError "Input arrays violate [N][2] shape requirement") ∧
    (set_polygons c5_state [ArrayLike.badShape]).1.polygons_as_vertices ≠
      c5_state.polygons_as_vertices := by
  constructor
  · rfl
  · decide

/-- C5 (amended): when `set_polygons` meets its first non-convertible or
wrongly shaped element, it raises the matching `ValueError` before
`num_polygons` and `target_init_separation` are touched (both keep their
pre-call values), but `polygons_as_vertices` is replaced by the partial
list of the successfully converted preceding elements. -/
theorem C5_set_polygons_failure_amended (s : LayoutSequencer)
    (good rest : List ArrayLike) (bad : ArrayLike)
    (hgood : ∀ a ∈ good, ∃ pts, a = ArrayLike.valid pts)
    (hbad : bad = ArrayLike.convFail ∨ bad = ArrayLike.badShape) :
    set_polygons s (good ++ bad :: rest) =
      ({ s with polygons_as_vertices := some (good.map extract_points) },
       some (.valueError (conversion_error_message bad))) ∧
    (set_polygons s (good ++ bad :: rest)).1.num_polygons = s.num_polygons ∧
    (set_polygons s (good ++ bad :: rest)).1.target_init_separation =
      s.target_init_separation := by
  have hgen : set_polygons s (good ++ bad :: rest) =
      ({ s with polygons_as_vertices := some (good.map extract_points) },
       some (.valueError (conversion_error_message bad))) := by
    unfold set_polygons
    rw [set_polygons_loop_first_error good bad rest _ [] hgood hbad rfl,
      List.nil_append]
  exact ⟨hgen, by rw [hgen], by rw [hgen]⟩

/-- Witness for the amended C5: one valid polygon precedes a wrongly
shaped element; the partial list `[[pB]]` replaces the prior polygons
while count and separations are untouched. -/
theorem C5_set_polygons_failure_amended_witness :
    set_polygons c5_state ([.valid [pB]] ++ ArrayLike.badShape :: []) =
      ({ c5_state with polygons_as_vertices := some (([.valid [pB]] : List ArrayLike).map extract_points) },
       some (.valueError (conversion_error_message ArrayLike.badShape))) ∧
    (set_polygons c5_state
      ([.valid [pB]] ++ ArrayLike.badShape :: [])).1.num_polygons =
      c5_state.num_polygons ∧
    (set_polygons c5_state
      ([.valid [pB]] ++ ArrayLike.badShape :: [])).1.target_init_separation =
      c5_state.target_init_separation :=
  C5_set_polygons_failure_amended c5_state [.valid [pB]] [] ArrayLike.badShape
    (by
      intro a ha
      rw [List.mem_singleton] at ha
      exact ⟨[pB], ha⟩)
    (Or.inr rfl)

/-- C6: calling `set_target_init_separation` or `generate_sequence`
before polygons have been set, or `view_sequence` before a sequence has
been generated, raises the precondition error naming the missing setup
step and the attempted operation, with no state change. -/
theorem C6_precondition_gating (s t : LayoutSequencer) (arg : SepArg)
    (planner : Planner)
    (hs : s.polygons_as_vertices = none) (ht : t.sequence = none) :
    set_target_init_separation s arg =
      (s, some (.runtimeError
        "Set polygons before invoking set_target_init_separation()")) ∧
    generate_sequence planner s =
      (s, some (.runtimeError "Set polygons before invoking generate_sequence()")) ∧
    view_sequence t =
      (t, some (.runtimeError "Generate sequence before invoking view_sequence()")) := by
  refine ⟨?_, ?_, ?_⟩
  · unfold set_target_init_separation
    rw [hs]
    rfl
  · unfold generate_sequence
    rw [hs]
    rfl
  · unfold view_sequence
    rw [ht]
    rfl


/-- Witness for C6 on the freshly constructed component. -/
theorem C6_precondition_gating_witness :
    set_target_init_separation LayoutSequencer.init (.scalar 5) =
      (LayoutSequencer.init, some (.runtimeError
        "Set polygons before invoking set_target_init_separation()")) ∧
    generate_sequence demo_planner LayoutSequencer.init =
      (LayoutSequencer.init, some (.runtimeError
        "Set polygons before invoking generate_sequence()")) ∧
    view_sequence LayoutSequencer.init =
      (LayoutSequencer.init, some (.runtimeError
        "Generate sequence before invoking view_sequence()")) :=
  C6_precondition_gating LayoutSequencer.init LayoutSequencer.init
    (.scalar 5) demo_planner rfl rfl

/-- C7: with polygons set, `set_target_init_separation` with a list of
the wrong length fails with the mismatch error and leaves the state
unchanged; with a list of the right length it stores exactly that list,
preserving index correspondence. -/
theorem C7_separation_list_matching (s : LayoutSequencer)
    (polys : List PointArray) (n : Nat) (xs : List ℚ)
    (hpoly : s.polygons_as_vertices = some polys)
    (hnum : s.num_polygons = some n) :
    (xs.length ≠ n →
      set_target_init_separation s (.list xs) =
        (s, some (.valueError
          "List of target initial pass separations does not match the number of polygons"))) ∧
    (xs.length = n →
      set_target_init_separation s (.list xs) =
        ({ s with target_init_separation := some xs }, none)) := by
  constructor
  · intro hne
    unfold set_target_init_separation
    rw [hpoly]
    simp only
    rw [if_pos (by rw [hnum]; simpa using hne)]
  · intro heq
    unfold set_target_init_separation
    rw [hpoly]
    simp only
    rw [if_neg (by rw [hnum]; simpa using heq)]

/-- Witness for C7: with 2 polygons, a 1-element list is rejected
without a state change and a 2-element list is stored as given. -/
theorem C7_separation_list_matching_witness :
    ((([(1 : ℚ)] : List ℚ).length ≠ 2 →
      set_target_init_separation demo_layout (.list [1]) =
        (demo_layout, some (.valueError
          "List of target initial pass separations does not match the number of polygons"))) ∧
    (([(1 : ℚ)] : List ℚ).length = 2 →
      set_target_init_separation demo_layout (.list [1]) =
        ({ demo_layout with target_init_separation := some [1] }, none))) ∧
    ((([(1 : ℚ), 2] : List ℚ).length ≠ 2 →
      set_target_init_separation demo_layout (.list [1, 2]) =
        (demo_layout, some (.valueError
          "List of target initial pass separations does not match the number of polygons"))) ∧
    (([(1 : ℚ), 2] : List ℚ).length = 2 →
      set_target_init_separation demo_layout (.list [1, 2]) =
        ({ demo_layout with target_init_separation := some [1, 2] }, none))) :=
  ⟨C7_separation_list_matching demo_layout [[pA, pB], [pC, pD, pE]] 2 [1]
      (by decide) (by decide),
   C7_separation_list_matching demo_layout [[pA, pB], [pC, pD, pE]] 2 [1, 2]
      (by decide) (by decide)⟩

/-- C8: after every successful `set_polygons` call with `k` polygons,
`target_init_separation` is the system default repeated `k` times,
whatever the prior configuration was. -/
theorem C8_default_separation_reset (s : LayoutSequencer) (input : List ArrayLike)
    (hvalid : ∀ a ∈ input, ∃ pts, a = ArrayLike.valid pts) :
    (set_polygons s input).2 = none ∧
    (set_polygons s input).1.target_init_separation =
      some (List.replicate input.length DEFAULT_TARGET_INIT_SEPARATION) ∧
    ∀ x ∈ (set_polygons s input).1.target_init_separation.getD [],
      x = DEFAULT_TARGET_INIT_SEPARATION := by
  have hgen := set_polygons_loop_all_valid input
    { s with polygons_as_vertices := some [] } [] hvalid rfl
  rw [List.nil_append, List.length_map] at hgen
  unfold set_polygons
  rw [hgen]
  refine ⟨rfl, rfl, ?_⟩
  intro x hx
  simp only [Option.getD_some] at hx
  exact List.eq_of_mem_replicate hx

/-- Witness for C8: re-setting polygons after a custom separation resets
both separations to the default. -/
theorem C8_default_separation_reset_witness :
    (set_polygons demo_layout [.valid [pA], .valid [pB]]).2 = none ∧
    (set_polygons demo_layout
      [.valid [pA], .valid [pB]]).1.target_init_separation =
      some (List.replicate ([ArrayLike.valid [pA], .valid [pB]] :
        List ArrayLike).length DEFAULT_TARGET_INIT_SEPARATION) ∧
    ∀ x ∈ (set_polygons demo_layout
      [.valid [pA], .valid [pB]]).1.target_init_separation.getD [],
      x = DEFAULT_TARGET_INIT_SEPARATION :=
  C8_default_separation_reset demo_layout [.valid [pA], .valid [pB]]
    (by
      intro a ha
      rw [List.mem_cons, List.mem_singleton] at ha
      cases ha with
      | inl h => exact ⟨[pA], h⟩
      | inr h => exact ⟨[pB], h⟩)

/-- C9: with polygons set and `polygon_count = n ≥ 1`, a scalar argument
to `set_target_init_separation` stores the scalar repeated `n` times —
every element equals the scalar — and the call succeeds returning the
component. -/
theorem C9_uniform_broadcast (s : LayoutSequencer)
    (polys : List PointArray) (n : Nat) (x : ℚ)
    (hpoly : s.polygons_as_vertices = some polys)
    (hnum : s.num_polygons = some n)
    (hpos : 1 ≤ n) :
    set_target_init_separation s (.scalar x) =
      ({ s with target_init_separation := some (List.replicate n x) }, none) ∧
    (List.replicate n x).length = n ∧
    ∀ y ∈ List.replicate n x, y = x := by
  refine ⟨?_, List.length_replicate n x, fun y hy => List.eq_of_mem_replicate hy⟩
  unfold set_target_init_separation
  rw [hpoly]
  simp only
  rw [hnum, Option.getD_some]

/-- Witness for C9 with 2 polygons and scalar 7. -/
theorem C9_uniform_broadcast_witness :
    set_target_init_separation demo_layout (.scalar 7) =
      ({ demo_layout with target_init_separation := some (List.replicate 2 (7 : ℚ)) }, none) ∧
    (List.replicate 2 (7 : ℚ)).length = 2 ∧
    ∀ y ∈ List.replicate 2 (7 : ℚ), y = 7 :=
  C9_uniform_broadcast demo_layout [[pA, pB], [pC, pD, pE]] 2 7
    (by decide) (by decide) (by decide)

/-- C10: `set_polygons` accepts the empty list, leaving a zero polygon
count and empty separations; afterwards sequential generation succeeds
with an empty sequence, while staggered generation hits Python's own
`max()` error on the empty pass-count list — an error equal to none of
the errors in the spec's taxonomy (not a precondition `RuntimeError`,
not a wrapped planner diagnostic, not an input-validation or mismatch
message). -/
theorem C10_empty_layout (s : LayoutSequencer) (planner : Planner) :
    (set_polygons s []).2 = none ∧
    (set_polygons s []).1.num_polygons = some 0 ∧
    (set_polygons s []).1.target_init_separation = some [] ∧
    generate_sequence planner (set_staggered (set_polygons s []).1 false) =
      ({ (set_polygons s []).1 with
          staggered := false
          polygon_sequencers := some []
          sequence := some [] }, none) ∧
    (generate_sequence planner (set_staggered (set_polygons s []).1 true)).2 =
      some (.valueError "max() arg is an empty sequence") ∧
    (∀ m, PyError.valueError "max() arg is an empty sequence" ≠
      PyError.runtimeError m) ∧
    (∀ m, PyError.valueError "max() arg is an empty sequence" ≠
      PyError.valueError ("Polygons could not be sequenced\n" ++ m)) ∧
    PyError.valueError "max() arg is an empty sequence" ≠
      PyError.valueError "Input arrays cannot be converted to numpy arrays" ∧
    PyError.valueError "max() arg is an empty sequence" ≠
      PyError.valueError "Input arrays violate [N][2] shape requirement" ∧
    PyError.valueError "max() arg is an empty sequence" ≠
      PyError.valueError
        "List of target initial pass separations does not match the number of polygons" := by
  refine ⟨rfl, rfl, rfl, rfl, rfl, fun m h => PyError.noConfusion h, ?_, ?_, ?_, ?_⟩
  · intro m h
    injection h with h2
    have h3 := congrArg String.length h2
    rw [String.length_append] at h3
    have e1 : ("max() arg is an empty sequence" : String).length = 30 := by decide
    have e2 : ("Polygons could not be sequenced\n" : String).length = 32 := by decide
    rw [e1, e2] at h3
    omega
  · decide
  · decide
  · decide

end LayoutSequencing
